import Mathlib

/-!
Verification of the codex-subagents npm package (antsh3k/codex-cv) against its
natural-language specification.

The executable code of the repository is the JavaScript wrapper:
`lib/config.js` (ConfigManager), `lib/binary-manager.js` (BinaryManager),
`lib/agent-manager.js` (AgentManager) and `bin/codex-subagents.js` (the CLI).
This file shallowly embeds the functions those claims depend on.  External
effects are made explicit:

* the user and builtin agent directories are association lists
  `filename -> read result`;
* the result of the frontmatter regex
  `content.match(/^---\s*\n([\s\S]*?)\n---\s*\n([\s\S]*)$/)` and of the
  external `yaml.parse` call is represented by the `ParseInput` type (the two
  capture groups appear as the parsed metadata record plus the verbatim body
  string);
* JavaScript strings are Lean `String`s; the string helpers the code relies on
  (`trim`, `endsWith`, `basename`, `split`, `localeCompare`) are defined
  structurally on `List Char` below so that every definition evaluates inside
  the kernel.

The Rust core (orchestrator and conflict tracker) described by the
specification is not part of the source tree; the definitions for it are
modelled from the specification and are marked as such in their doc comments.
-/

deriving instance DecidableEq for Except

namespace CodexSubagents

/-- JavaScript whitespace as used by `String.prototype.trim`: ASCII blanks,
line terminators, NBSP and the BOM. -/
def isJsSpace (c : Char) : Bool :=
  c == ' ' || c == '\t' || c == '\n' || c == '\r' ||
  c.val == 0x0b || c.val == 0x0c || c.val == 0xa0 || c.val == 0xfeff

/-- Embedding of JavaScript `String.prototype.trim`: drop the maximal
whitespace prefix and suffix of the string. -/
def jsTrim (s : String) : String :=
  String.mk (((s.toList.dropWhile isJsSpace).reverse.dropWhile isJsSpace).reverse)

/-- Embedding of `file.endsWith('.md')` from `lib/agent-manager.js`. -/
def endsWithMd (s : String) : Bool :=
  match s.toList.reverse with
  | 'd' :: 'm' :: '.' :: _ => true
  | _ => false

/-- Strip a trailing `.md` from a list of characters, if present. -/
def stripMdSuffix (l : List Char) : List Char :=
  match l.reverse with
  | 'd' :: 'm' :: '.' :: rest => rest.reverse
  | _ => l

/-- Embedding of `path.basename(agentPath, '.md')`: the component after the
last path separator, with a trailing `.md` removed. -/
def baseNameMd (p : String) : String :=
  String.mk (stripMdSuffix ((p.toList.reverse.takeWhile (fun c => c != '/')).reverse))

/-- Lookup in an association list keyed by strings.  Used for directory
listings (`fs.pathExists` + `fs.readFile`), environment objects and the
attribution map. -/
def alistGet {α : Type} (l : List (String × α)) (k : String) : Option α :=
  match l with
  | [] => none
  | (k', v) :: rest => if k' == k then some v else alistGet rest k

/-- Removal of a key from an association list; models deleting a file from a
directory. -/
def alistErase {α : Type} (l : List (String × α)) (k : String) : List (String × α) :=
  match l with
  | [] => []
  | (k', v) :: rest =>
    if k' == k then alistErase rest k else (k', v) :: alistErase rest k

/-- Lexicographic code-point comparison of character lists; models the
comparator `a.name.localeCompare(b.name)` (the locale-independent core:
ascending code-point order). -/
def charListLe : List Char → List Char → Bool
  | [], _ => true
  | _ :: _, [] => false
  | a :: as, b :: bs =>
    if a.toNat < b.toNat then true
    else if b.toNat < a.toNat then false
    else charListLe as bs

/-- The scope a specification was loaded from: the user agents directory
(`~/.codex-subagents/agents`) or the package's builtin `agents/` directory. -/
inductive AgentSource
  | user
  | builtin
deriving DecidableEq

/-- A YAML frontmatter value of the `tools` / `keywords` fields, together with
its JavaScript presence/truthiness structure: `undef` is an absent field,
`nullv` a YAML null, `str` a scalar string, `arr` a list.  (Other YAML value
shapes behave like `str` for the checks the code performs: truthy and not an
array.) -/
inductive ListField
  | undef
  | nullv
  | str (s : String)
  | arr (xs : List String)
deriving DecidableEq

/-- JavaScript truthiness of a `ListField` value: arrays are always truthy
(including `[]`), strings are truthy when non-empty, `null`/`undefined` are
falsy. -/
def ListField.truthy : ListField → Bool
  | .undef => false
  | .nullv => false
  | .str s => !(s == "")
  | .arr _ => true

/-- Whether a `ListField` value is an array (`Array.isArray`). -/
def ListField.isArr : ListField → Bool
  | .arr _ => true
  | _ => false

/-- JavaScript truthiness of an optional string field (`undefined`, `null`
and `""` are falsy). -/
def optStrTruthy : Option String → Bool
  | none => false
  | some s => !(s == "")

/-- JavaScript `x || d` for an optional string `x`: the string when truthy,
otherwise the default. -/
def jsOr (x : Option String) (d : String) : String :=
  match x with
  | none => d
  | some s => if s == "" then d else s

/-- The parsed YAML frontmatter of an agent definition file, restricted to the
fields `parseAgentDefinition` reads.  `name`, `description` and `model` are
modelled as optional strings (a non-string `name` would crash the later
`localeCompare` call and is outside the modelled behaviour); `tools` and
`keywords` keep the full presence/shape structure because the code validates
`Array.isArray` on them. -/
structure Frontmatter where
  name : Option String := none
  description : Option String := none
  model : Option String := none
  tools : ListField := .undef
  keywords : ListField := .undef
deriving DecidableEq

/-- The outcome of the frontmatter regex match and of `yaml.parse` on a file's
content, which `parseAgentDefinition` then inspects: the regex may not match,
`yaml.parse` may throw (this also covers a `null` parse result, on which the
subsequent field accesses throw), or both steps succeed and yield the
metadata record together with the second capture group (the verbatim body). -/
inductive ParseInput
  | noFrontmatter
  | yamlError (msg : String)
  | parsed (fm : Frontmatter) (body : String)
deriving DecidableEq

/-- The result of `fs.readFile` on an agent file: a thrown read error, or the
file's content abstracted by its `ParseInput`. -/
inductive FileData
  | readError (msg : String)
  | content (inp : ParseInput)
deriving DecidableEq

/-- A directory listing: association list from file name to read result. -/
abbrev Dir : Type := List (String × FileData)

/-- The record returned by `parseAgentDefinition` / `loadAgent`.  `none`
fields correspond to JavaScript `undefined` fields of the early error-return
objects `{ name, source, filePath, parseErrors }`. -/
structure Agent where
  name : String
  description : Option String := none
  model : Option String := none
  tools : Option ListField := none
  keywords : Option ListField := none
  instructions : Option String := none
  source : AgentSource
  filePath : String
  parseErrors : List String := []
deriving DecidableEq

/-- The user agents directory `path.join(os.homedir(), '.codex-subagents', 'agents')`. -/
def userAgentsDir : String := "HOME/.codex-subagents/agents"

/-- The builtin agents directory `path.join(__dirname, '..', 'agents')`. -/
def builtinAgentsDir : String := "PACKAGE/agents"

/-- Embedding of `AgentManager.parseAgentDefinition(content, filePath, source)`.
The regex match and the YAML parse are abstracted by `inp`; everything after
them is translated directly: the `name` fallback to the file's basename, the
required-`name` check, the `Array.isArray` checks on `tools` and `keywords`,
the `|| ''` / `|| []` defaulting, and `instructions.trim()`. -/
def parseAgentDefinition (filePath : String) (inp : ParseInput) (source : AgentSource) : Agent :=
  let base := baseNameMd filePath
  match inp with
  | .noFrontmatter =>
    { name := base, source, filePath, parseErrors := ["No YAML frontmatter found"] }
  | .yamlError msg =>
    { name := base, source, filePath, parseErrors := ["YAML parsing error: " ++ msg] }
  | .parsed fm body =>
    let nameErrs := if optStrTruthy fm.name then [] else ["Missing required field: name"]
    let name := if optStrTruthy fm.name then fm.name.getD base else base
    let toolsErrs :=
      if fm.tools.truthy && !fm.tools.isArr then ["Tools must be an array"] else []
    let kwErrs :=
      if fm.keywords.truthy && !fm.keywords.isArr then ["Keywords must be an array"] else []
    { name := name
      description := some (jsOr fm.description "")
      model := some (jsOr fm.model "")
      tools := some (if fm.tools.truthy then fm.tools else .arr [])
      keywords := some (if fm.keywords.truthy then fm.keywords else .arr [])
      instructions := some (jsTrim body)
      source := source
      filePath := filePath
      parseErrors := nameErrs ++ toolsErrs ++ kwErrs }

/-- Embedding of `AgentManager.loadAgent(agentPath, source)`: read the file;
a read failure produces the per-file error record, otherwise the content is
parsed. -/
def loadAgent (filePath : String) (d : FileData) (source : AgentSource) : Agent :=
  match d with
  | .content inp => parseAgentDefinition filePath inp source
  | .readError msg =>
    { name := baseNameMd filePath, source, filePath,
      parseErrors := ["Failed to read file: " ++ msg] }

/-- Loading of one user-directory file inside `loadAllAgents`. -/
def loadUserFile (f : String × FileData) : Agent :=
  loadAgent (userAgentsDir ++ "/" ++ f.1) f.2 .user

/-- Loading of one builtin-directory file inside `loadAllAgents`. -/
def loadBuiltinFile (f : String × FileData) : Agent :=
  loadAgent (builtinAgentsDir ++ "/" ++ f.1) f.2 .builtin

/-- The builtin-directory loop body of `loadAllAgents`: a builtin agent is
appended only if no already-collected agent has the same name. -/
def addBuiltin (acc : List Agent) (f : String × FileData) : List Agent :=
  let agent := loadBuiltinFile f
  if acc.any (fun a => a.name == agent.name) then acc else acc ++ [agent]

/-- The sort comparator of `loadAllAgents`,
`(a, b) => a.name.localeCompare(b.name)`, as a boolean "less or equal". -/
def agentNameLe (a b : Agent) : Bool :=
  charListLe a.name.toList b.name.toList

/-- The sort comparator as a relation, for the sort below. -/
def agentRel : Agent → Agent → Prop := fun a b => agentNameLe a b = true

instance : DecidableRel agentRel :=
  fun a b => inferInstanceAs (Decidable (agentNameLe a b = true))

/-- Embedding of `AgentManager.loadAllAgents(includeBuiltin)`: load every
`.md` file of the user directory, then every `.md` file of the builtin
directory that does not collide with an already-loaded name, and sort the
result with the name comparator (`agents.sort(...)` is a stable comparison
sort, modelled by stable insertion sort).  A missing directory behaves like
an empty listing; `loadAgent` never returns a falsy value, so the
`if (agent)` guard of the source is always taken. -/
def loadAllAgents (userDir builtinDir : Dir) (includeBuiltin : Bool) : List Agent :=
  let userAgents := (userDir.filter (fun f => endsWithMd f.1)).map loadUserFile
  let agents :=
    if includeBuiltin then
      (builtinDir.filter (fun f => endsWithMd f.1)).foldl addBuiltin userAgents
    else userAgents
  List.insertionSort agentRel agents

/-- Embedding of `AgentManager.getAgent(name)`: try the user agent path
first, then the builtin path, and fail when neither file exists. -/
def getAgent (name : String) (userDir builtinDir : Dir) : Except String Agent :=
  match alistGet userDir (name ++ ".md") with
  | some d => .ok (loadAgent (userAgentsDir ++ "/" ++ (name ++ ".md")) d .user)
  | none =>
    match alistGet builtinDir (name ++ ".md") with
    | some d => .ok (loadAgent (builtinAgentsDir ++ "/" ++ (name ++ ".md")) d .builtin)
    | none => .error ("Agent " ++ name ++ " not found")

/-- Embedding of the name check in `AgentManager.createAgent`:
`name.match(/^[a-z0-9-]+$/)` — one or more characters from the safe
identifier set. -/
def isSafeNameChar (c : Char) : Bool :=
  ('a' ≤ c && c ≤ 'z') || ('0' ≤ c && c ≤ '9') || c == '-'

/-- Whether a name matches the anchored regex `/^[a-z0-9-]+$/`. -/
def matchesNameRegex (name : String) : Bool :=
  !(name == "") && name.toList.all isSafeNameChar

/-- Dash characters replaced by spaces, as in the global dash-to-space
`name.replace` call of the basic template title. -/
def dashToSpace (c : Char) : Char := if c == '-' then ' ' else c

/-- A JavaScript `\w` word character. -/
def isWordChar (c : Char) : Bool := c.isAlpha || c.isDigit || c == '_'

/-- Uppercase each word-initial character, as in
`.replace(/\b\w/g, l => l.toUpperCase())`; the boolean tracks whether the
previous character was a word character. -/
def capWordStarts : List Char → Bool → List Char
  | [], _ => []
  | c :: rest, prevIsWord =>
    (if !prevIsWord && isWordChar c then c.toUpper else c) :: capWordStarts rest (isWordChar c)

/-- The template title: dashes to spaces, then word-initial capitals. -/
def titleCaseName (name : String) : String :=
  String.mk (capWordStarts (name.toList.map dashToSpace) false)

/-- Split a character list at commas, as in `String.prototype.split(',')`. -/
def splitComma : List Char → List (List Char)
  | [] => [[]]
  | c :: rest =>
    match splitComma rest with
    | [] => if c == ',' then [[], []] else [[c]]
    | h :: t => if c == ',' then [] :: h :: t else (c :: h) :: t

/-- `options.tools.split(',').map(t => t.trim())`. -/
def splitCommaTrim (s : String) : List String :=
  (splitComma s.toList).map (fun l => jsTrim (String.mk l))

/-- The substitution variables `createAgent` passes to `getAgentTemplate`. -/
structure TemplateVars where
  name : String
  description : String
  tools : List String
  model : String
deriving DecidableEq

/-- The frontmatter block shared by all templates:
name, description, the conditional model line, the tools list and the two
keyword lines are interpolated exactly as in the template literals. -/
def templateHeader (vars : TemplateVars) (toolsBlock : String) (keywordsBlock : String) : String :=
  "---\n" ++
  "name: " ++ vars.name ++ "\n" ++
  "description: " ++ vars.description ++ "\n" ++
  (if vars.model == "" then "" else "model: " ++ vars.model) ++ "\n" ++
  "tools:\n" ++ toolsBlock ++ "\n" ++
  "keywords:\n" ++ keywordsBlock ++ "\n" ++
  "---\n"

/-- The `basic` template literal of `AgentManager.getAgentTemplate`. -/
def basicTemplate (vars : TemplateVars) : String :=
  templateHeader vars
    (String.intercalate "\n" (vars.tools.map (fun tool => "  - " ++ tool)))
    ("  - custom\n  - " ++ vars.name) ++
  "\n# " ++ titleCaseName vars.name ++ " Agent\n\n" ++
  "I am a custom agent designed to help with specific tasks.\n\n" ++
  "## What I can do:\n\n" ++
  "- Analyze code and provide suggestions\n" ++
  "- Help with Git operations\n" ++
  "- Assist with project tasks\n\n" ++
  "## How to use me:\n\n" ++
  "```bash\n" ++
  "codex-subagents run " ++ vars.name ++ " --prompt \"Your request here\"\n" ++
  "```\n\n" ++
  "Customize this description and the YAML frontmatter above to match your specific needs.\n"

/-- The `code-review` template literal of `AgentManager.getAgentTemplate`. -/
def codeReviewTemplate (vars : TemplateVars) : String :=
  templateHeader
    { vars with description := jsOr (some vars.description) ("Reviews code for quality, bugs, and improvements") }
    ("  - git\n  - node\n  - npm")
    ("  - review\n  - code-quality\n  - bugs") ++
  "\n# Code Review Agent\n\n" ++
  "I specialize in reviewing code for quality, potential bugs, and improvement opportunities.\n\n" ++
  "## What I analyze:\n\n" ++
  "- **Code Quality**: Style, readability, and maintainability\n" ++
  "- **Bug Detection**: Logic errors, edge cases, and potential failures\n" ++
  "- **Performance**: Optimization opportunities and bottlenecks\n" ++
  "- **Security**: Potential vulnerabilities and security best practices\n" ++
  "- **Documentation**: Code comments and documentation quality\n\n" ++
  "## Review Process:\n\n" ++
  "1. Analyze the provided code or diff\n" ++
  "2. Identify issues by severity (Critical, High, Medium, Low)\n" ++
  "3. Provide specific recommendations with examples\n" ++
  "4. Suggest best practices and improvements\n\n" ++
  "## Usage:\n\n" ++
  "```bash\n" ++
  "# Review staged changes\n" ++
  "codex-subagents run " ++ vars.name ++ " --prompt \"Review my staged changes\"\n\n" ++
  "# Review specific file\n" ++
  "codex-subagents run " ++ vars.name ++ " --prompt \"Review src/main.js for potential issues\"\n" ++
  "```\n"

/-- The `docs` template literal of `AgentManager.getAgentTemplate`. -/
def docsTemplate (vars : TemplateVars) : String :=
  templateHeader
    { vars with description := jsOr (some vars.description) ("Generates comprehensive documentation") }
    ("  - git\n  - node")
    ("  - documentation\n  - readme\n  - api-docs") ++
  "\n# Documentation Generator\n\n" ++
  "I specialize in creating clear, comprehensive documentation for code projects.\n\n" ++
  "## Documentation Types:\n\n" ++
  "- **API Documentation**: Function and method documentation\n" ++
  "- **README Files**: Project overviews and getting started guides\n" ++
  "- **Code Comments**: Inline documentation for complex code\n" ++
  "- **Architecture Docs**: High-level system documentation\n" ++
  "- **User Guides**: How-to guides and tutorials\n\n" ++
  "## Documentation Standards:\n\n" ++
  "- Clear, concise language\n" ++
  "- Practical examples and code snippets\n" ++
  "- Proper formatting and structure\n" ++
  "- Up-to-date and accurate information\n\n" ++
  "## Usage:\n\n" ++
  "```bash\n" ++
  "# Generate README for project\n" ++
  "codex-subagents run " ++ vars.name ++ " --prompt \"Create a README for this project\"\n\n" ++
  "# Document specific function\n" ++
  "codex-subagents run " ++ vars.name ++ " --prompt \"Document the calculateTotal function\"\n" ++
  "```\n"

/-- The `testing` template literal of `AgentManager.getAgentTemplate`. -/
def testingTemplate (vars : TemplateVars) : String :=
  templateHeader
    { vars with description := jsOr (some vars.description) ("Creates comprehensive test suites") }
    ("  - git\n  - node\n  - npm\n  - python3")
    ("  - testing\n  - unit-tests\n  - integration-tests") ++
  "\n# Test Generator\n\n" ++
  "I specialize in creating comprehensive test suites for reliable code.\n\n" ++
  "## Test Types:\n\n" ++
  "- **Unit Tests**: Test individual functions and methods\n" ++
  "- **Integration Tests**: Test component interactions\n" ++
  "- **Edge Case Tests**: Test boundary conditions and error scenarios\n" ++
  "- **Performance Tests**: Test execution speed and resource usage\n\n" ++
  "## Testing Frameworks:\n\n" ++
  "- **JavaScript**: Jest, Mocha, Vitest\n" ++
  "- **Python**: pytest, unittest\n" ++
  "- **Rust**: cargo test\n" ++
  "- **Go**: built-in testing package\n\n" ++
  "## Test Strategy:\n\n" ++
  "1. Analyze code structure and dependencies\n" ++
  "2. Identify critical paths and edge cases\n" ++
  "3. Generate comprehensive test cases\n" ++
  "4. Include proper setup and teardown\n" ++
  "5. Ensure good test coverage\n\n" ++
  "## Usage:\n\n" ++
  "```bash\n" ++
  "# Generate tests for a function\n" ++
  "codex-subagents run " ++ vars.name ++ " --prompt \"Create tests for the userAuth module\"\n\n" ++
  "# Create integration tests\n" ++
  "codex-subagents run " ++ vars.name ++ " --prompt \"Generate integration tests for the API endpoints\"\n" ++
  "```\n"

/-- Embedding of `AgentManager.getAgentTemplate(templateType, vars)`:
`templates[templateType] || templates.basic`. -/
def getAgentTemplate (templateType : String) (vars : TemplateVars) : String :=
  if templateType == "code-review" then codeReviewTemplate vars
  else if templateType == "docs" then docsTemplate vars
  else if templateType == "testing" then testingTemplate vars
  else basicTemplate vars

/-- The options of the `create` command that reach `createAgent`. -/
structure CreateOptions where
  template : Option String := none
  description : Option String := none
  tools : Option String := none
  model : Option String := none
deriving DecidableEq

/-- The user agents directory as raw file contents, for `createAgent`
(which checks existence with `fs.pathExists` and writes with
`fs.writeFile`). -/
abbrev RawDir : Type := List (String × String)

/-- Embedding of `AgentManager.createAgent(name, options)`.  The returned
pair is the thrown error or created path, together with the directory after
the call; the validation and existence checks happen before any write, so on
either error the directory is returned untouched. -/
def createAgent (fsDir : RawDir) (name : String) (opts : CreateOptions) : Except String String × RawDir :=
  if !(matchesNameRegex name) then
    (.error ("Agent name must contain only lowercase letters, numbers, and hyphens"), fsDir)
  else
    let agentPath := userAgentsDir ++ "/" ++ (name ++ ".md")
    if (alistGet fsDir (name ++ ".md")).isSome then
      (.error ("Agent \x27" ++ name ++ "\x27 already exists at " ++ agentPath), fsDir)
    else
      let template := getAgentTemplate (jsOr opts.template ("basic"))
        { name := name
          description := jsOr opts.description ("A custom agent named " ++ name)
          tools :=
            match opts.tools with
            | some s => if s == "" then ["git"] else splitCommaTrim s
            | none => ["git"]
          model := jsOr opts.model "" }
      (.ok agentPath, (name ++ ".md", template) :: fsDir)

/-- A process environment object, as an association list whose first match
wins; assigning a key is modelled by shadowing it at the front. -/
abbrev EnvList : Type := List (String × String)

/-- Lookup of an environment variable. -/
def envGet (e : EnvList) (k : String) : Option String := alistGet e k

/-- Assignment of an environment variable (the later binding shadows any
earlier one, as for a JavaScript object property written later). -/
def envSet (e : EnvList) (k v : String) : EnvList := (k, v) :: e

/-- The object spread `{...e1, ...e2}`: every property of `e2` overrides the
one of `e1`. -/
def mergeSpread (e1 e2 : EnvList) : EnvList :=
  e2.foldl (fun acc kv => envSet acc kv.1 kv.2) e1

/-- Embedding of the child environment built by
`BinaryManager.executeBinary`:
`{...process.env, ...options.env, CODEX_SUBAGENTS_ENABLED: '1', RUST_LOG: options.verbose ? 'debug' : 'info'}`.
The source comment reads "Enable subagents by default for our standalone
tool": the override is written unconditionally, after both spreads. -/
def spawnBinaryEnv (procEnv optsEnv : EnvList) (verbose : Bool) : EnvList :=
  envSet (envSet (mergeSpread procEnv optsEnv) ("CODEX_SUBAGENTS_ENABLED") ("1"))
    ("RUST_LOG") (if verbose then "debug" else "info")

/-- Embedding of the `list` command action of `bin/codex-subagents.js`:
`ensureBinaryExists()` (its failure, when no binary is found, is abstracted
by `binaryOk`), then `agentManager.listAgents(options)`, which loads the
agents via `loadAllAgents(options.all)`.  The action consults no feature
flag, so the process environment `procEnv` is never read. -/
def listCommand (binaryOk : Bool) (procEnv : EnvList) (userDir builtinDir : Dir)
    (showAll : Bool) : Except String (List Agent) :=
  if binaryOk then .ok (loadAllAgents userDir builtinDir showAll)
  else .error ("Binary not found")

/-- Modelled from the spec: the orchestrator's record of the single active
execution (`ExecutionState.active`), holding `agent_name`, `sub_session_id`,
`started_at` and `attempt_count`.  The orchestrator itself lives in the Rust
core, which is not part of this source tree. -/
structure ActiveExecution where
  agent_name : String
  sub_session_id : Nat
  started_at : Nat
  attempt_count : Nat
deriving DecidableEq

/-- Modelled from the spec: the mutable `ExecutionState` owned by the
Orchestrator — at most one active execution per parent session. -/
structure ExecutionState where
  active : Option ActiveExecution
deriving DecidableEq

/-- Modelled from the spec: an `ExecutionRequest` with `agent_name`, optional
`prompt` and `parent_session_id`. -/
structure ExecutionRequest where
  agent_name : String
  prompt : Option String := none
  parent_session_id : Nat
deriving DecidableEq

/-- Modelled from the spec: the orchestrator errors relevant to the
`Idle -> Resolving` transition. -/
inductive OrchestratorError
  | concurrentExecution (running requested : String)
  | unknownAgent (name : String)
deriving DecidableEq

/-- Modelled from the spec: the `Idle -> Resolving -> Executing` steps of
`Orchestrator.execute(request)` (the Rust core is not in the source tree).
If another execution is active for the parent session, the call is rejected
immediately with `ConcurrentExecution{running_agent, requested_agent}` and
the state is left untouched; otherwise the specification is resolved through
the store (`getAgent`), a resolution miss fails with `UnknownAgent` without
ever marking the state active, and on success the state becomes active with
a fresh sub-session id and the id is returned. -/
def executeRequest (st : ExecutionState) (userDir builtinDir : Dir)
    (req : ExecutionRequest) (newSid now : Nat) :
    Except OrchestratorError Nat × ExecutionState :=
  match st.active with
  | some running =>
    (.error (.concurrentExecution running.agent_name req.agent_name), st)
  | none =>
    match getAgent req.agent_name userDir builtinDir with
    | .error _ => (.error (.unknownAgent req.agent_name), st)
    | .ok _ => (.ok newSid, { active := some ⟨req.agent_name, newSid, now, 0⟩ })

/-- Modelled from the spec: the ConflictTracker attribution record
`resource_path -> (last_agent_name, sub_session_id, timestamp)`. -/
structure Attribution where
  last_agent_name : String
  sub_session_id : Nat
  timestamp : Nat
deriving DecidableEq

/-- The ConflictTracker attribution map. -/
abbrev AttributionMap : Type := List (String × Attribution)

/-- Whether an agent is the currently active one of the orchestrator state. -/
def isAgentActive (st : ExecutionState) (agent : String) : Bool :=
  match st.active with
  | some a => a.agent_name == agent
  | none => false

/-- Modelled from the spec: the three-tier classification returned by the
ConflictTracker. -/
inductive Classification
  | clear
  | warning (previous_agent : String)
  | blocked (previous_agent : String)
deriving DecidableEq

/-- Modelled from the spec: `record_and_classify(resource_path, agent_name,
sub_session_id)` of the ConflictTracker (the Rust core is not in the source
tree).  No prior entry, or a prior entry by the same agent, is Clear and the
entry is written (the spec fixes the same-sub-session case; a prior entry by
the same agent with another sub-session is treated the same way).  A prior
entry by a different agent is Blocked without recording when that agent is
still active, and otherwise Warning with the entry updated. -/
def record_and_classify (m : AttributionMap) (st : ExecutionState)
    (resource_path agent_name : String) (sid ts : Nat) :
    Classification × AttributionMap :=
  match alistGet m resource_path with
  | none => (.clear, (resource_path, ⟨agent_name, sid, ts⟩) :: m)
  | some prev =>
    if prev.last_agent_name == agent_name then
      (.clear, (resource_path, ⟨agent_name, sid, ts⟩) :: m)
    else if isAgentActive st prev.last_agent_name then
      (.blocked prev.last_agent_name, m)
    else
      (.warning prev.last_agent_name, (resource_path, ⟨agent_name, sid, ts⟩) :: m)

/-- Modelled from the spec (for comparison with the implementation in claim
C8): "the body is trimmed of leading/trailing blank lines and stored
verbatim" — split into lines, drop the leading and trailing all-whitespace
lines, and rejoin. -/
def splitLines : List Char → List (List Char)
  | [] => [[]]
  | c :: rest =>
    match splitLines rest with
    | [] => if c == '\n' then [[], []] else [[c]]
    | h :: t => if c == '\n' then [] :: h :: t else (c :: h) :: t

/-- Whether a line consists only of whitespace. -/
def isBlankLine (l : List Char) : Bool := l.all isJsSpace

/-- Modelled from the spec: removal of leading and trailing blank lines only,
with every other character (including line-leading whitespace) preserved. -/
def specTrimBlankLines (s : String) : String :=
  let lines := splitLines s.toList
  let kept := ((lines.dropWhile isBlankLine).reverse.dropWhile isBlankLine).reverse
  String.mk (List.intercalate ['\n'] kept)

/-! Helper lemmas about the comparator and the association-list helpers. -/

theorem charListLe_head (x y : Char) (xs ys : List Char)
    (h : charListLe (x :: xs) (y :: ys) = true) :
    x.toNat < y.toNat ∨ (x.toNat = y.toNat ∧ charListLe xs ys = true) := by
  by_cases hxy : x.toNat < y.toNat
  · exact Or.inl hxy
  · by_cases hyx : y.toNat < x.toNat
    · simp [charListLe, hxy, hyx] at h
    · exact Or.inr ⟨by omega, by simpa [charListLe, hxy, hyx] using h⟩

theorem charListLe_trans : ∀ l1 l2 l3 : List Char,
    charListLe l1 l2 = true → charListLe l2 l3 = true → charListLe l1 l3 = true := by
  intro l1
  induction l1 with
  | nil => intro l2 l3 _ _; rfl
  | cons a as ih =>
    intro l2 l3 h1 h2
    cases l2 with
    | nil => simp [charListLe] at h1
    | cons b bs =>
      cases l3 with
      | nil => simp [charListLe] at h2
      | cons c cs =>
        rcases charListLe_head a b as bs h1 with hab | ⟨hab, t1⟩ <;>
          rcases charListLe_head b c bs cs h2 with hbc | ⟨hbc, t2⟩
        · simp [charListLe, show a.toNat < c.toNat by omega]
        · simp [charListLe, show a.toNat < c.toNat by omega]
        · simp [charListLe, show a.toNat < c.toNat by omega]
        · have hle : ¬ a.toNat < c.toNat := by omega
          have hge : ¬ c.toNat < a.toNat := by omega
          simp [charListLe, hle, hge]
          exact ih bs cs t1 t2

theorem charListLe_total : ∀ l1 l2 : List Char,
    charListLe l1 l2 = true ∨ charListLe l2 l1 = true := by
  intro l1
  induction l1 with
  | nil => intro l2; left; rfl
  | cons a as ih =>
    intro l2
    cases l2 with
    | nil => right; rfl
    | cons b bs =>
      rcases Nat.lt_trichotomy a.toNat b.toNat with h | h | h
      · left; simp [charListLe, h]
      · have h1 : ¬ a.toNat < b.toNat := by omega
        have h2 : ¬ b.toNat < a.toNat := by omega
        rcases ih bs with hc | hc
        · left; simp [charListLe, h1, h2, hc]
        · right; simp [charListLe, h1, h2, hc]
      · right; simp [charListLe, h]

instance : IsTrans Agent agentRel :=
  ⟨fun a b c h1 h2 => charListLe_trans _ _ _ h1 h2⟩

instance : IsTotal Agent agentRel :=
  ⟨fun a b => charListLe_total a.name.toList b.name.toList⟩

theorem alistGet_alistErase {α : Type} (l : List (String × α)) (k : String) :
    alistGet (alistErase l k) k = none := by
  induction l with
  | nil => rfl
  | cons hd tl ih =>
    obtain ⟨k', v⟩ := hd
    by_cases h : (k' == k) = true
    · simpa [alistErase, h] using ih
    · simp [alistErase, alistGet, h, ih]

theorem mem_foldl_addBuiltin (l : List (String × FileData)) (acc : List Agent) (x : Agent)
    (h : x ∈ acc) : x ∈ l.foldl addBuiltin acc := by
  induction l generalizing acc with
  | nil => exact h
  | cons f fs ih =>
    apply ih
    unfold addBuiltin
    by_cases hc : (acc.any fun a => a.name == (loadBuiltinFile f).name) = true
    · simpa [hc] using h
    · simp only [hc]
      simp [h]

/-! The claims. -/

/-- C2: for every specification file whose metadata block has no `tools`
field, the loaded record's tools set is empty — `parseAgentDefinition`
stores `[]`, never a default or inherited tool set. -/
theorem c2_absent_tools_means_zero_tools (filePath : String) (src : AgentSource)
    (nm d m : Option String) (kw : ListField) (body : String) :
    (parseAgentDefinition filePath
        (.parsed { name := nm, description := d, model := m, tools := .undef, keywords := kw }
          body) src).tools
      = some (.arr []) := rfl

/-- C1: when the user (priority) scope and the builtin (fallback) scope
both contain a file for a name, `getAgent` resolves to the user-scope
record, and once the user-scope file is removed it resolves to the
builtin-scope record. -/
theorem c1_priority_scope_wins (name : String) (userDir builtinDir : Dir)
    (du db : FileData)
    (hu : alistGet userDir (name ++ ".md") = some du)
    (hb : alistGet builtinDir (name ++ ".md") = some db) :
    getAgent name userDir builtinDir
      = .ok (loadAgent (userAgentsDir ++ "/" ++ (name ++ ".md")) du .user)
    ∧ getAgent name (alistErase userDir (name ++ ".md")) builtinDir
      = .ok (loadAgent (builtinAgentsDir ++ "/" ++ (name ++ ".md")) db .builtin) := by
  constructor
  · unfold getAgent
    rw [hu]
  · unfold getAgent
    rw [alistGet_alistErase, hb]

/-- Witness for C1 at a concrete store: `helper.md` exists in both scopes. -/
theorem c1_priority_scope_wins_witness :
    (alistGet [(("helper.md" : String),
        FileData.content (.parsed { name := some ("helper") } ("From user.")))]
        ("helper" ++ ".md")
      = some (FileData.content (.parsed { name := some ("helper") } ("From user."))))
    ∧ (alistGet [(("helper.md" : String),
        FileData.content (.parsed { name := some ("helper") } ("From builtin.")))]
        ("helper" ++ ".md")
      = some (FileData.content (.parsed { name := some ("helper") } ("From builtin."))))
    ∧ (getAgent ("helper")
        [(("helper.md" : String),
          FileData.content (.parsed { name := some ("helper") } ("From user.")))]
        [(("helper.md" : String),
          FileData.content (.parsed { name := some ("helper") } ("From builtin.")))]
        = .ok (loadAgent (userAgentsDir ++ "/" ++ ("helper" ++ ".md"))
            (FileData.content (.parsed { name := some ("helper") } ("From user."))) .user)
      ∧ getAgent ("helper")
        (alistErase
          [(("helper.md" : String),
            FileData.content (.parsed { name := some ("helper") } ("From user.")))]
          ("helper" ++ ".md"))
        [(("helper.md" : String),
          FileData.content (.parsed { name := some ("helper") } ("From builtin.")))]
        = .ok (loadAgent (builtinAgentsDir ++ "/" ++ ("helper" ++ ".md"))
            (FileData.content (.parsed { name := some ("helper") } ("From builtin."))) .builtin)) :=
  ⟨by decide, by decide,
    c1_priority_scope_wins ("helper") _ _ _ _ (by decide) (by decide)⟩

/-- C9: when a definition file already exists at the name's path in the user
agents directory, `createAgent` fails with an error and returns the
directory untouched (so the existing file's contents are unchanged); it
writes a file only when none existed at that path. -/
theorem c9_createAgent_never_overwrites (fsDir : RawDir) (name : String)
    (opts : CreateOptions) :
    (∀ c, alistGet fsDir (name ++ ".md") = some c →
      ∃ msg, createAgent fsDir name opts = (.error msg, fsDir))
    ∧ (∀ p, (createAgent fsDir name opts).1 = .ok p →
      alistGet fsDir (name ++ ".md") = none) := by
  constructor
  · intro c hc
    by_cases hn : matchesNameRegex name = true
    · refine ⟨("Agent \x27" ++ name ++ "\x27 already exists at "
        ++ (userAgentsDir ++ "/" ++ (name ++ ".md"))), ?_⟩
      simp [createAgent, hn, hc]
    · refine ⟨("Agent name must contain only lowercase letters, numbers, and hyphens"), ?_⟩
      simp [createAgent, hn]
  · intro p hp
    by_cases hn : matchesNameRegex name = true
    · cases hg : alistGet fsDir (name ++ ".md") with
      | none => rfl
      | some c => simp [createAgent, hn, hg] at hp
    · simp [createAgent, hn] at hp

/-- Witness for C9: creating `taken` over an existing `taken.md` fails and
leaves the directory unchanged; creating `fresh` in an empty directory
succeeds, and indeed no file existed there. -/
theorem c9_createAgent_never_overwrites_witness :
    (alistGet [(("taken.md" : String), ("old contents" : String))] ("taken" ++ ".md")
        = some ("old contents")
      ∧ ∃ msg, createAgent [(("taken.md" : String), ("old contents" : String))] ("taken") {}
          = (.error msg, [(("taken.md" : String), ("old contents" : String))]))
    ∧ ((createAgent ([] : RawDir) ("fresh") {}).1
          = .ok (userAgentsDir ++ "/" ++ ("fresh" ++ ".md"))
      ∧ alistGet ([] : RawDir) ("fresh" ++ ".md") = none) :=
  ⟨⟨by decide,
    (c9_createAgent_never_overwrites _ ("taken") {}).1 ("old contents") (by decide)⟩,
   ⟨by decide,
    (c9_createAgent_never_overwrites _ ("fresh") {}).2
      (userAgentsDir ++ "/" ++ ("fresh" ++ ".md")) (by decide)⟩⟩

/-- C3 (modelled from the spec: the orchestrator lives in the Rust core,
which is not in the source tree — the `run` command only spawns it): while
an execution is active for the parent session, a second `execute` call
returns `ConcurrentExecution` naming the running and the requested agent,
and the active state — including its `sub_session_id` — is unchanged. -/
theorem c3_concurrent_execution_rejected (st : ExecutionState) (userDir builtinDir : Dir)
    (req : ExecutionRequest) (newSid now : Nat) (running : ActiveExecution)
    (h : st.active = some running) :
    executeRequest st userDir builtinDir req newSid now
      = (.error (.concurrentExecution running.agent_name req.agent_name), st)
    ∧ (executeRequest st userDir builtinDir req newSid now).2.active = some running := by
  obtain ⟨a⟩ := st
  cases h
  exact ⟨rfl, rfl⟩

/-- Witness for C3: a `linter` request while `writer` is active (with
sub-session 7) is rejected and the state keeps sub-session 7. -/
theorem c3_concurrent_execution_rejected_witness :
    ((ExecutionState.mk (some ⟨("writer"), 7, 100, 0⟩)).active = some ⟨("writer"), 7, 100, 0⟩)
    ∧ (executeRequest (ExecutionState.mk (some ⟨("writer"), 7, 100, 0⟩)) [] []
          ⟨("linter"), none, 1⟩ 8 200
        = (.error (.concurrentExecution ("writer") ("linter")),
            ExecutionState.mk (some ⟨("writer"), 7, 100, 0⟩))
      ∧ (executeRequest (ExecutionState.mk (some ⟨("writer"), 7, 100, 0⟩)) [] []
          ⟨("linter"), none, 1⟩ 8 200).2.active = some ⟨("writer"), 7, 100, 0⟩) :=
  ⟨rfl, c3_concurrent_execution_rejected _ [] [] ⟨("linter"), none, 1⟩ 8 200 _ rfl⟩

/-- C6 (modelled from the spec: the ConflictTracker lives in the Rust core,
which is not in the source tree): a `record_and_classify` call for agent B
on a path whose latest attribution belongs to a different agent A that is
still active returns `Blocked` with A as the previous agent and does not
record — the attribution map is returned unchanged, so the entry still
holds A's record. -/
theorem c6_blocked_does_not_record (m : AttributionMap) (st : ExecutionState)
    (p A B : String) (sid ts : Nat) (prev : Attribution)
    (hlook : alistGet m p = some prev)
    (hname : prev.last_agent_name = A)
    (hactive : isAgentActive st A = true)
    (hne : A ≠ B) :
    record_and_classify m st p B sid ts = (.blocked A, m)
    ∧ alistGet (record_and_classify m st p B sid ts).2 p = some prev := by
  subst hname
  have hnb : (prev.last_agent_name == B) = false := by
    simpa using hne
  have heq : record_and_classify m st p B sid ts = (.blocked prev.last_agent_name, m) := by
    unfold record_and_classify
    rw [hlook]
    simp [hnb, hactive]
  exact ⟨heq, by rw [heq]; exact hlook⟩

/-- Witness for C6: `writer` (active, sub-session 7) holds the attribution
of `src/a.rs`; a call by `linter` is blocked and the entry still names
`writer`. -/
theorem c6_blocked_does_not_record_witness :
    (alistGet [(("src/a.rs" : String), Attribution.mk ("writer") 7 100)] ("src/a.rs")
        = some (Attribution.mk ("writer") 7 100)
      ∧ isAgentActive (ExecutionState.mk (some ⟨("writer"), 7, 100, 0⟩)) ("writer") = true
      ∧ ("writer" : String) ≠ "linter")
    ∧ (record_and_classify [(("src/a.rs" : String), Attribution.mk ("writer") 7 100)]
          (ExecutionState.mk (some ⟨("writer"), 7, 100, 0⟩)) ("src/a.rs") ("linter") 8 200
        = (.blocked ("writer"), [(("src/a.rs" : String), Attribution.mk ("writer") 7 100)])
      ∧ alistGet (record_and_classify [(("src/a.rs" : String), Attribution.mk ("writer") 7 100)]
          (ExecutionState.mk (some ⟨("writer"), 7, 100, 0⟩)) ("src/a.rs") ("linter") 8 200).2
          ("src/a.rs")
        = some (Attribution.mk ("writer") 7 100)) :=
  ⟨⟨by decide, by decide, by decide⟩,
    c6_blocked_does_not_record _ _ ("src/a.rs") ("writer") ("linter") 8 200 _
      (by decide) rfl (by decide) (by decide)⟩

/-- C4 counterexample: with the feature flag explicitly set to `0` in the
process environment (the disabled configuration), the wrapper still injects
`CODEX_SUBAGENTS_ENABLED = "1"` into the spawned binary's environment, and
the `list` entry point performs discovery and returns the loaded agent
instead of failing with a `Disabled` error. -/
theorem c4_counterexample_no_feature_gate :
    envGet (spawnBinaryEnv [(("CODEX_SUBAGENTS_ENABLED" : String), ("0" : String))] [] false)
        ("CODEX_SUBAGENTS_ENABLED") = some ("1")
    ∧ listCommand true [(("CODEX_SUBAGENTS_ENABLED" : String), ("0" : String))]
        [(("helper.md" : String),
          FileData.content (.parsed { name := some ("helper") } ("Do helpful things.")))]
        [] false
      = .ok [loadAgent (userAgentsDir ++ "/" ++ ("helper.md"))
          (FileData.content (.parsed { name := some ("helper") } ("Do helpful things.")))
          .user] :=
  ⟨rfl, by decide⟩

/-- C4 amended: the npm wrapper has no feature gate — `executeBinary` always
injects `CODEX_SUBAGENTS_ENABLED='1'` into the child environment, whatever
the process or option environment says, and the `list` entry point performs
its discovery work independently of the process environment (it consults no
flag and has no `Disabled` error). -/
theorem c4_amended_wrapper_forces_enabled :
    (∀ (procEnv optsEnv : EnvList) (verbose : Bool),
      envGet (spawnBinaryEnv procEnv optsEnv verbose) ("CODEX_SUBAGENTS_ENABLED")
        = some ("1"))
    ∧ (∀ (binaryOk : Bool) (e e' : EnvList) (userDir builtinDir : Dir) (showAll : Bool),
      listCommand binaryOk e userDir builtinDir showAll
        = listCommand binaryOk e' userDir builtinDir showAll
      ∧ listCommand true e userDir builtinDir showAll
        = .ok (loadAllAgents userDir builtinDir showAll)) := by
  constructor
  · intro procEnv optsEnv verbose
    rfl
  · intro binaryOk e e' userDir builtinDir showAll
    exact ⟨rfl, rfl⟩

/-- Any user-scope `.md` file's record is in the `loadAllAgents` result. -/
theorem mem_loadAllAgents_of_user (userDir builtinDir : Dir) (includeBuiltin : Bool)
    (h : String × FileData) (hmem : h ∈ userDir) (hmd : endsWithMd h.1 = true) :
    loadUserFile h ∈ loadAllAgents userDir builtinDir includeBuiltin := by
  unfold loadAllAgents
  cases includeBuiltin with
  | false =>
    exact ((List.perm_insertionSort agentRel _).mem_iff).mpr
      (List.mem_map_of_mem _ (List.mem_filter.mpr ⟨hmem, hmd⟩))
  | true =>
    exact ((List.perm_insertionSort agentRel _).mem_iff).mpr
      (mem_foldl_addBuiltin _ _ _
        (List.mem_map_of_mem _ (List.mem_filter.mpr ⟨hmem, hmd⟩)))

/-- C5: when one user file fails to parse or validate (its record carries
per-file `parseErrors`), loading still loads every other file: both the
failing file's error record and any other file's record appear in the
`loadAllAgents` registry. -/
theorem c5_bad_file_never_hides_rest (userDir builtinDir : Dir) (includeBuiltin : Bool)
    (f g : String × FileData)
    (hfmem : f ∈ userDir) (hfmd : endsWithMd f.1 = true)
    (hgmem : g ∈ userDir) (hgmd : endsWithMd g.1 = true)
    (hbad : (loadUserFile g).parseErrors ≠ []) :
    loadUserFile f ∈ loadAllAgents userDir builtinDir includeBuiltin
    ∧ loadUserFile g ∈ loadAllAgents userDir builtinDir includeBuiltin :=
  ⟨mem_loadAllAgents_of_user userDir builtinDir includeBuiltin f hfmem hfmd,
   mem_loadAllAgents_of_user userDir builtinDir includeBuiltin g hgmem hgmd⟩

/-- Witness for C5, the spec's end-to-end scenario 3: `bad.md` declares
`name: ""` and fails validation per-file, while `good.md` in the same
directory still loads; both records are in the registry. -/
theorem c5_bad_file_never_hides_rest_witness :
    ((("good.md" : String), FileData.content (.parsed { name := some ("good") } ("Good body.")))
        ∈ [(("good.md" : String),
            FileData.content (.parsed { name := some ("good") } ("Good body."))),
           (("bad.md" : String),
            FileData.content (.parsed { name := some ("") } ("Bad body.")))]
      ∧ endsWithMd ("good.md") = true
      ∧ (("bad.md" : String), FileData.content (.parsed { name := some ("") } ("Bad body.")))
        ∈ [(("good.md" : String),
            FileData.content (.parsed { name := some ("good") } ("Good body."))),
           (("bad.md" : String),
            FileData.content (.parsed { name := some ("") } ("Bad body.")))]
      ∧ endsWithMd ("bad.md") = true
      ∧ (loadUserFile (("bad.md" : String),
          FileData.content (.parsed { name := some ("") } ("Bad body.")))).parseErrors ≠ [])
    ∧ (loadUserFile (("good.md" : String),
          FileData.content (.parsed { name := some ("good") } ("Good body.")))
        ∈ loadAllAgents
          [(("good.md" : String),
            FileData.content (.parsed { name := some ("good") } ("Good body."))),
           (("bad.md" : String),
            FileData.content (.parsed { name := some ("") } ("Bad body.")))] [] true
      ∧ loadUserFile (("bad.md" : String),
          FileData.content (.parsed { name := some ("") } ("Bad body.")))
        ∈ loadAllAgents
          [(("good.md" : String),
            FileData.content (.parsed { name := some ("good") } ("Good body."))),
           (("bad.md" : String),
            FileData.content (.parsed { name := some ("") } ("Bad body.")))] [] true) :=
  ⟨⟨by decide, by decide, by decide, by decide, by decide⟩,
    c5_bad_file_never_hides_rest _ [] true _ _
      (by decide) (by decide) (by decide) (by decide) (by decide)⟩

/-- C10: the list returned by `loadAllAgents` is sorted in ascending order of
agent name under the name comparator, for every state of the user and
builtin directories and on every call. -/
theorem c10_loadAllAgents_sorted (userDir builtinDir : Dir) (includeBuiltin : Bool) :
    List.Sorted agentRel (loadAllAgents userDir builtinDir includeBuiltin) := by
  unfold loadAllAgents
  exact List.sorted_insertionSort agentRel _

/-- C7 counterexample: a file declaring the name `Bad Name!` — characters
outside the safe identifier set `[a-z0-9-]` — loads with an empty per-file
error list: no validation error is captured for invalid identifier
characters during loading. -/
theorem c7_counterexample_invalid_chars_load_clean :
    (parseAgentDefinition (userAgentsDir ++ "/" ++ ("badname.md"))
        (.parsed { name := some ("Bad Name!") } ("Body text.")) .user).parseErrors = []
    ∧ (parseAgentDefinition (userAgentsDir ++ "/" ++ ("badname.md"))
        (.parsed { name := some ("Bad Name!") } ("Body text.")) .user).name = "Bad Name!"
    ∧ matchesNameRegex ("Bad Name!") = false :=
  ⟨by decide, by decide, by decide⟩

/-- C7 amended: loading records per-file errors only for a missing name,
non-array `tools` and non-array `keywords`; a declared name with characters
outside the safe set loads with no per-file error.  The safe-character rule
is enforced only by `createAgent`, which rejects such names (and leaves the
directory unchanged) while other files are unaffected. -/
theorem c7_amended_chars_checked_only_at_creation :
    (∀ (filePath : String) (src : AgentSource) (s : String) (d m : Option String)
        (ts ks : List String) (body : String),
      s ≠ "" →
      (parseAgentDefinition filePath
          (.parsed { name := some s, description := d, model := m,
                     tools := .arr ts, keywords := .arr ks } body) src).parseErrors = [])
    ∧ (∀ (fsDir : RawDir) (name : String) (opts : CreateOptions),
      matchesNameRegex name = false →
      createAgent fsDir name opts
        = (.error ("Agent name must contain only lowercase letters, numbers, and hyphens"),
            fsDir)) := by
  constructor
  · intro filePath src s d m ts ks body hs
    have h1 : (s == "") = false := beq_eq_false_iff_ne.mpr hs
    simp [parseAgentDefinition, optStrTruthy, ListField.truthy, ListField.isArr, h1]
  · intro fsDir name opts h
    simp [createAgent, h]

/-- Witness for C7 amended: `Bad@Name` is outside the safe character set; it
loads with no per-file error, and `createAgent` rejects it. -/
theorem c7_amended_chars_checked_only_at_creation_witness :
    ((("Bad@Name" : String) ≠ ""
      ∧ (parseAgentDefinition (userAgentsDir ++ "/" ++ ("x.md"))
          (.parsed { name := some ("Bad@Name"), description := none, model := none,
                     tools := .arr [("git" : String)], keywords := .arr [] }
            ("Body.")) .user).parseErrors = [])
    ∧ (matchesNameRegex ("Bad@Name") = false
      ∧ createAgent ([] : RawDir) ("Bad@Name") {}
          = (.error ("Agent name must contain only lowercase letters, numbers, and hyphens"),
              ([] : RawDir)))) :=
  ⟨⟨by decide,
    (c7_amended_chars_checked_only_at_creation).1 _ _ ("Bad@Name") none none
      [("git" : String)] [] ("Body.") (by decide)⟩,
   ⟨by decide,
    (c7_amended_chars_checked_only_at_creation).2 ([] : RawDir) ("Bad@Name") {} (by decide)⟩⟩

/-- C8 counterexample: for the file `---\nname: demo\n---\n  hello` the
frontmatter regex yields the body `"  hello"`; the code stores
`instructions = "hello"`, while removing only leading/trailing blank lines
(the spec's words, `specTrimBlankLines`) would keep `"  hello"`: the leading
whitespace of the first non-blank line is removed by `trim()`. -/
theorem c8_counterexample_first_line_indent_lost :
    (parseAgentDefinition (userAgentsDir ++ "/" ++ ("demo.md"))
        (.parsed { name := some ("demo") } ("  hello")) .user).instructions = some ("hello")
    ∧ specTrimBlankLines ("  hello") = "  hello"
    ∧ ("hello" : String) ≠ "  hello" :=
  ⟨by decide, by decide, by decide⟩

/-- C8 amended: the stored instructions equal the body with its maximal
leading and trailing whitespace removed (JavaScript `trim()` semantics) —
this removes enclosing blank lines but also the leading whitespace of the
first non-blank line and the trailing whitespace of the last; everything
between the two whitespace runs is preserved verbatim. -/
theorem c8_amended_trim_whole_whitespace (filePath : String) (src : AgentSource)
    (fm : Frontmatter) (body : String) :
    (parseAgentDefinition filePath (.parsed fm body) src).instructions = some (jsTrim body)
    ∧ ∃ pre post : List Char,
      body.toList = pre ++ (jsTrim body).toList ++ post
      ∧ pre.all isJsSpace = true ∧ post.all isJsSpace = true := by
  constructor
  · rfl
  · refine ⟨body.toList.takeWhile isJsSpace,
      ((body.toList.dropWhile isJsSpace).reverse.takeWhile isJsSpace).reverse, ?_, ?_, ?_⟩
    · have hmid : body.toList.dropWhile isJsSpace
          = ((body.toList.dropWhile isJsSpace).reverse.dropWhile isJsSpace).reverse
            ++ ((body.toList.dropWhile isJsSpace).reverse.takeWhile isJsSpace).reverse := by
        have h0 : (body.toList.dropWhile isJsSpace).reverse.takeWhile isJsSpace
              ++ (body.toList.dropWhile isJsSpace).reverse.dropWhile isJsSpace
            = (body.toList.dropWhile isJsSpace).reverse :=
          List.takeWhile_append_dropWhile isJsSpace _
        calc body.toList.dropWhile isJsSpace
            = (body.toList.dropWhile isJsSpace).reverse.reverse :=
              (List.reverse_reverse _).symm
          _ = ((body.toList.dropWhile isJsSpace).reverse.takeWhile isJsSpace
                ++ (body.toList.dropWhile isJsSpace).reverse.dropWhile isJsSpace).reverse := by
              rw [h0]
          _ = ((body.toList.dropWhile isJsSpace).reverse.dropWhile isJsSpace).reverse
                ++ ((body.toList.dropWhile isJsSpace).reverse.takeWhile isJsSpace).reverse :=
              List.reverse_append _ _
      show body.toList
          = body.toList.takeWhile isJsSpace
            ++ ((body.toList.dropWhile isJsSpace).reverse.dropWhile isJsSpace).reverse
            ++ ((body.toList.dropWhile isJsSpace).reverse.takeWhile isJsSpace).reverse
      rw [List.append_assoc, ← hmid, List.takeWhile_append_dropWhile]
    · exact List.all_eq_true.mpr (fun x hx => List.mem_takeWhile_imp hx)
    · rw [List.all_reverse]
      exact List.all_eq_true.mpr (fun x hx => List.mem_takeWhile_imp hx)

end CodexSubagents
